import Mathlib

/-!
Verification of the remote-browser visual-regression test runner and the
document change-event model of this repository.

The TypeScript sources are shallowly embedded:

* JavaScript numbers that hold 32-bit LCG state are modelled as `Int`, and the
  JavaScript remainder operator `%` (sign of the dividend) as `Int.tmod`.
* `Math.floor(random.float()*(i+1))` computes with 64-bit floats whose values
  are exact rationals; the embedding computes the same quantity in `ℚ`.
* Asynchronous browser/filesystem interactions (`Runtime.evaluate`,
  `Page.captureScreenshot`, `load_baseline`, `diff_image`, console/exception
  buffers, directory listings) are external collaborators; one attempt's
  responses are collected in an explicit environment record, and external pure
  serializers (`create_baseline`) are function parameters.
* JavaScript object identity used by `Array.prototype.indexOf` and `Set` is
  modelled by structural (decidable) equality.
-/

namespace Runner

/-- The constant `MAX_INT32` from the runner source (`2147483647 = 2^31 - 1`). -/
def MAX_INT32 : Int := 2147483647

/-- The seeded linear-congruential generator `class Random`.  Its single
private field `seed` is the generator state. -/
structure Random where
  seed : Int
deriving DecidableEq, Repr

/-- The `Random` constructor:
`this.seed = seed % MAX_INT32; if (this.seed <= 0) this.seed += MAX_INT32 - 1`.
JavaScript `%` keeps the sign of the dividend, which is `Int.tmod`. -/
def Random.ofSeed (seed : Int) : Random :=
  let s := seed.tmod MAX_INT32
  if s ≤ 0 then ⟨s + (MAX_INT32 - 1)⟩ else ⟨s⟩

/-- The method `integer(): this.seed = (48271*this.seed) % MAX_INT32; return this.seed`.
Returns the updated generator and the drawn value. -/
def Random.integer (r : Random) : Random × Int :=
  let s := (48271 * r.seed).tmod MAX_INT32
  (⟨s⟩, s)

/-- The method `float(): return (this.integer() - 1) / (MAX_INT32 - 1)`, computed in `ℚ`
(the float operands here are integers below `2^31`, hence exact). -/
def Random.float (r : Random) : Random × ℚ :=
  let (r', i) := r.integer
  (r', ((i : ℚ) - 1) / ((MAX_INT32 : ℚ) - 1))

/-- The generator-state invariant maintained by `Random`:
state lies in `[1, MAX_INT32 - 1] = [1, 2^31 - 2]`. -/
def valid_state (r : Random) : Prop :=
  1 ≤ r.seed ∧ r.seed ≤ MAX_INT32 - 1

instance (r : Random) : Decidable (valid_state r) := by
  unfold valid_state; infer_instance

/-- One swap of `shuffle`:
`const temp = array[i]; array[i] = array[j]; array[j] = temp`. -/
def swapAt {α : Type} (l : List α) (i j : Nat) : List α :=
  match l[i]?, l[j]? with
  | some a, some b => (l.set i b).set j a
  | _, _ => l

/-- The swap partner `j = Math.floor(q*(i + 1))` for loop index `i`, where `q`
is the drawn float. -/
def swap_index (q : ℚ) (i : Nat) : Nat :=
  (⌊q * ((i : ℚ) + 1)⌋).toNat

/-- The loop body of `shuffle`, counting the loop index `i` down to `1`
(the source loop is `for (let i = array.length - 1; i > 0; i--)`). -/
def shuffleAux {α : Type} : List α → Random → Nat → List α × Random
  | l, r, 0 => (l, r)
  | l, r, i + 1 =>
    let (r', q) := r.float
    let j := swap_index q (i + 1)
    shuffleAux (swapAt l (i + 1) j) r' i

/-- The source `function shuffle<T>(array: T[], random: Random)` (Fisher–Yates with the
LCG); returns the shuffled list and the final generator state. -/
def shuffle {α : Type} (l : List α) (r : Random) : List α × Random :=
  shuffleAux l r (l.length - 1)

/-- The sequence of position swaps `(i, j)` performed by `shuffle`, read off
the generator alone: it depends only on the generator state and the length. -/
def swapSeq (r : Random) : Nat → List (Nat × Nat)
  | 0 => []
  | i + 1 =>
    let (r', q) := r.float
    (i + 1, swap_index q (i + 1)) :: swapSeq r' i

/-- Apply a sequence of position swaps in order. -/
def applySwaps {α : Type} (ps : List (Nat × Nat)) (l : List α) : List α :=
  ps.foldl (fun acc p => swapAt acc p.1 p.2) l

/-- The helper `encode`: `s.replace(/[ \/\[\]]/g, "_")` — every space, slash or square
bracket becomes an underscore. -/
def encode (s : String) : String :=
  ⟨s.data.map (fun c => if c = ' ' ∨ c = '/' ∨ c = '[' ∨ c = ']' then '_' else c)⟩

/-- JavaScript `Array.prototype.join(sep)`. -/
def join_sep (sep : String) : List String → String
  | [] => ""
  | [x] => x
  | x :: xs => x ++ sep ++ join_sep sep xs

/-- Whether `pat` occurs at the very start of `cs` (character-list view). -/
def chars_lead : List Char → List Char → Bool
  | [], _ => true
  | _ :: _, [] => false
  | a :: as, b :: bs => a == b && chars_lead as bs

/-- JavaScript `String.prototype.includes(pat)`: `pat` occurs contiguously in `s`. -/
def str_includes (s pat : String) : Bool :=
  (List.range (s.data.length + 1)).any fun i => chars_lead pat.data (s.data.drop i)

/-- The runner type `Test = {description, skip, threshold?, retries?, dpr?}`. -/
structure Test where
  description : String
  skip : Bool
  threshold : Option Nat := none
  retries : Option Nat := none
  dpr : Option Nat := none
deriving DecidableEq, Repr

/-- The runner type `Suite = {description, suites: Suite[], tests: Test[]}`. -/
inductive Suite : Type where
  | mk (description : String) (suites : List Suite) (tests : List Test)

def Suite.description : Suite → String
  | .mk d _ _ => d

def Suite.suites : Suite → List Suite
  | .mk _ s _ => s

def Suite.tests : Suite → List Test
  | .mk _ _ t => t

mutual

/-- Decidable structural equality on suites, modelling JavaScript object
identity used by `Array.prototype.indexOf` (see the header note). -/
def Suite.decEq : (a b : Suite) → Decidable (a = b)
  | .mk d1 s1 t1, .mk d2 s2 t2 =>
    match String.decEq d1 d2 with
    | isFalse h => isFalse (fun hh => by cases hh; exact h rfl)
    | isTrue h1 =>
      match Suite.decEqList s1 s2 with
      | isFalse h => isFalse (fun hh => by cases hh; exact h rfl)
      | isTrue h2 =>
        match (inferInstanceAs (DecidableEq (List Test))) t1 t2 with
        | isFalse h => isFalse (fun hh => by cases hh; exact h rfl)
        | isTrue h3 => isTrue (by rw [h1, h2, h3])

def Suite.decEqList : (a b : List Suite) → Decidable (a = b)
  | [], [] => isTrue rfl
  | [], _ :: _ => isFalse (fun h => List.noConfusion h)
  | _ :: _, [] => isFalse (fun h => List.noConfusion h)
  | a :: as, b :: bs =>
    match Suite.decEq a b with
    | isFalse h => isFalse (fun hh => by cases hh; exact h rfl)
    | isTrue h1 =>
      match Suite.decEqList as bs with
      | isFalse h => isFalse (fun hh => by cases hh; exact h rfl)
      | isTrue h2 => isTrue (by rw [h1, h2])

end

instance : DecidableEq Suite := Suite.decEq

mutual

/-- The generator `function* iter({suites, tests}, parents = [])`: child suites first (depth
first, in declaration order), then the suite's own tests, each paired with the
suite path `parents` that leads to it. -/
def Suite.iter (parents : List Suite) : Suite → List (List Suite × Test)
  | .mk _ suites tests =>
    Suite.iterAll parents suites ++ tests.map (fun t => (parents, t))

/-- The `for (const suite of suites) yield* iter(suite, parents.concat(suite))`
part of `iter`. -/
def Suite.iterAll (parents : List Suite) : List Suite → List (List Suite × Test)
  | [] => []
  | s :: rest => Suite.iter (parents ++ [s]) s ++ Suite.iterAll parents rest

end

/-- The helper `descriptions(suites, test) = [...suites, test].map(obj => obj.description)`. -/
def descriptions (suites : List Suite) (test : Test) : List String :=
  suites.map Suite.description ++ [test.description]

/-- The helper `description(suites, test, sep = " ")`. -/
def description (suites : List Suite) (test : Test) (sep : String) : String :=
  join_sep sep (descriptions suites test)

/-- The inner walk of `to_seq`: push `current.suites.indexOf(suite)` for each
suite along the path, then `current.tests.indexOf(test)`. -/
def to_seqAux (test : Test) : Suite → List Suite → List Nat × Nat
  | current, [] => ([], current.tests.indexOf test)
  | current, s :: rest =>
    (current.suites.indexOf s :: (to_seqAux test s rest).1, (to_seqAux test s rest).2)

/-- The source `function to_seq(suites, test)`: the positional sequence identifiers of a
flattened pair, computed from the top-level suite. -/
def to_seq (top_level : Suite) (suites : List Suite) (test : Test) : List Nat × Nat :=
  to_seqAux test top_level suites

/-- Modelled from the spec: the page-side interpretation of the positional
sequence identifiers ("sent back to the page") — follow the suite indices from
the top-level suite, then take the test at the final index.  The page half of
`Tests.run(seq)` is not part of the excerpt. -/
def resolve (top : Suite) : List Nat → Nat → Option (List Suite × Test)
  | [], ti => (top.tests[ti]?).map (fun t => ([], t))
  | i :: rest, ti =>
    match top.suites[i]? with
    | none => none
    | some s => (resolve s rest ti).map (fun p => (s :: p.1, p.2))

/-- The tagged union of an in-page evaluation's outcome: the runner's
`Value<T> | Failure | Timeout`. -/
inductive EvalResult (α : Type) : Type where
  | value (v : α) : EvalResult α
  | failure (text : String) : EvalResult α
  | timeout : EvalResult α
deriving DecidableEq, Repr

/-- The field `result.error` of a `Tests.run` result: `{str: string, stack?: string}`. -/
structure ResultErr where
  str : String
  stack : Option String := none
deriving DecidableEq, Repr

/-- A textual state snapshot (the runner treats `State` opaquely and only
serializes it through the external `create_baseline`). -/
abbrev State := String

/-- A captured bitmap as raw bytes (`Buffer`); `Buffer.equals` is byte
equality. -/
abbrev Image := List Nat

/-- The capture region a test declares (`Box` from `./baselines`; the runner
only forwards it to `Page.captureScreenshot`). -/
structure Box where
  x : Int
  y : Int
  width : Int
  height : Int
deriving DecidableEq, Repr

/-- The runner type `Result = {error, time, state?, bbox?}` returned by `Tests.run`. -/
structure RunResult where
  error : Option ResultErr
  time : Nat
  state : Option State := none
  bbox : Option Box := none
deriving DecidableEq, Repr

/-- Console log severity retained by the runner (`"warning" | "error"`). -/
inductive LogLevel : Type where
  | warning
  | error
deriving DecidableEq, Repr

/-- A retained console entry. -/
structure LogEntry where
  level : LogLevel
  text : String
deriving DecidableEq, Repr

/-- The result of the external `diff_image(existing, current)` when non-null:
`{diff, pixels, percent}`.  `percent` is carried as its already formatted
`toFixed(2)` text (float formatting is external to this embedding). -/
structure ImageDiffResult where
  diff : Image
  pixels : Nat
  percent : String
deriving DecidableEq, Repr

/-- The per-test `Status` record accumulated by the runner.  The optional JS
booleans (`failure?`, `timeout?`, `skipped?`) are read through `?? false`, so
they are modelled as `Bool` with default `false`.  The `success?` field is
declared but never assigned in the source and is omitted. -/
structure Status where
  failure : Bool := false
  timeout : Bool := false
  skipped : Bool := false
  errors : List String := []
  baseline_name : Option String := none
  baseline : Option String := none
  baseline_diff : Option String := none
  reference : Option Image := none
  image : Option Image := none
  image_diff : Option Image := none
deriving DecidableEq, Repr

/-- The `--screenshot` mode; `undefined` behaves as `"test"` (they share a case),
and any other value throws before comparing. -/
inductive ScreenshotMode : Type where
  | test
  | save
  | skip
deriving DecidableEq, Repr

/-- The runner's CLI-derived configuration: `--baselines-root`, `--screenshot`,
`--retry`, `-k` keywords, `--grep` regexes (the external regex engine is
modelled by the match predicate of each compiled regex), `--randomize`,
`--seed`. -/
structure Config where
  baselines_root : Option String := none
  screenshot : ScreenshotMode := .test
  retry : Bool := false
  keywords : Option (List String) := none
  grep : Option (List (String → Bool)) := none
  randomize : Bool := false
  seed : Int := 0

/-- Everything the environment (browser page, filesystem, external differs)
answers during one `run_test` attempt:
  * `run_output` — `evaluate<Result>("Tests.run(seq)")`;
  * `entries`/`exceptions` — the console and exception buffers collected while
    the test ran (exception texts);
  * `state_output` — the follow-up `evaluate<State | null>("Tests.get_state")`;
  * `existing_baseline` — `load_baseline(baseline_file, ref)`;
  * `baseline_diff` — `diff_baseline(baseline_file, ref)`;
  * `captured_image` — `Page.captureScreenshot` bytes;
  * `existing_image` — `load_baseline_image(image_file, ref)`;
  * `image_diff` — `diff_image(existing, current)` (`none` for null);
  * `clear_output` — `evaluate("Tests.clear(seq)")`. -/
structure Env where
  run_output : EvalResult RunResult
  entries : List LogEntry := []
  exceptions : List String := []
  state_output : EvalResult (Option State) := .value none
  existing_baseline : Option String := none
  baseline_diff : String := ""
  captured_image : Image := []
  existing_image : Option Image := none
  image_diff : Option ImageDiffResult := none
  clear_output : EvalResult Unit := .value ()
deriving Repr

/-- The baseline-state block of `run_test` (the first inner async block): the
double state retrieval, the consistency check, and the comparison against the
stored baseline.  `cb` is the external `create_baseline`.  The accumulator is
`(may_retry, status)`. -/
def state_section (cb : List State → String) (test : Test) (env : Env)
    (result : RunResult) (acc : Bool × Status) : Bool × Status :=
  let (may_retry, status) := acc
  match result.state with
  | none =>
    (may_retry, { status with
      errors := status.errors ++ ["state not present in output"], failure := true })
  | some state_early =>
    match env.state_output with
    | .value (some state) =>
      let baseline_early := cb [state_early]
      let baseline := cb [state]
      if baseline_early ≠ baseline then
        (may_retry, { status with
          errors := status.errors ++
            ["inconsistent state", "early:", baseline_early, "later:", baseline],
          failure := true })
      else
        let status := { status with baseline := some baseline }
        let existing := env.existing_baseline
        if existing ≠ some baseline then
          let status :=
            if existing = none then
              { status with errors := status.errors ++ ["missing baseline"] }
            else status
          let may_retry :=
            if existing ≠ none ∧ test.retries ≠ none then true else may_retry
          let diff := env.baseline_diff
          (may_retry, { status with
            failure := true, baseline_diff := some diff,
            errors := status.errors ++ [diff] })
        else (may_retry, status)
    | _ =>
      (may_retry, { status with
        errors := status.errors ++ ["state not present in output"], failure := true })

/-- The failure message recorded for an above-threshold image difference:
`` `images differ by ${pixels}px (${percent}%)${attempt != null ? ` (attempt=${attempt})` : ""}` ``. -/
def image_diff_message (pixels : Nat) (percent : String) (attempt : Option Nat) : String :=
  "images differ by " ++ toString pixels ++ "px (" ++ percent ++ "%)" ++
    (match attempt with
     | none => ""
     | some i => " (attempt=" ++ toString i ++ ")")

/-- The screenshot block of `run_test` (the second inner async block): capture,
then per `--screenshot` mode compare against the stored reference image. -/
def screenshot_section (cfg : Config) (test : Test) (attempt : Option Nat)
    (env : Env) (bbox : Option Box) (acc : Bool × Status) : Bool × Status :=
  let (may_retry, status) := acc
  match bbox with
  | none => (may_retry, status)
  | some _ =>
    let current := env.captured_image
    let status := { status with image := some current }
    match cfg.screenshot with
    | .test =>
      match env.existing_image with
      | none =>
        (may_retry, { status with
          failure := true, errors := status.errors ++ ["missing baseline image"] })
      | some existing =>
        let status := { status with reference := some existing }
        if existing ≠ current then
          match env.image_diff with
          | some dr =>
            let may_retry := true
            let threshold := test.threshold.getD 0
            if dr.pixels > threshold then
              (may_retry, { status with
                failure := true, image_diff := some dr.diff,
                errors := status.errors ++
                  [image_diff_message dr.pixels dr.percent attempt] })
            else (may_retry, status)
          | none => (may_retry, status)
        else (may_retry, status)
    | .save => (may_retry, status)
    | .skip => (may_retry, status)

/-- The first statements of `run_test`'s `try` block: console errors are
pushed without failing (the `// XXX: too chatty` branch), collected exceptions
are pushed and fail the test. -/
def console_phase (env : Env) (status : Status) : Status :=
  let errs := (env.entries.filter (fun e => e.level == LogLevel.error)).map LogEntry.text
  let status :=
    if errs ≠ [] then { status with errors := status.errors ++ errs } else status
  if env.exceptions ≠ [] then
    { status with errors := status.errors ++ env.exceptions, failure := true }
  else status

/-- Dispatch on the `Tests.run` evaluation outcome: `Failure` fails,
`Timeout` times out, and a `Value` folds in `result.error` and — when a
baselines directory is configured — the state and screenshot blocks. -/
def output_phase (cfg : Config) (cb : List State → String) (test : Test)
    (attempt : Option Nat) (env : Env) (may_retry : Bool) (status : Status) :
    Bool × Status :=
  match env.run_output with
  | .failure text =>
    (may_retry, { status with errors := status.errors ++ [text], failure := true })
  | .timeout =>
    (may_retry, { status with errors := status.errors ++ ["timeout"], timeout := true })
  | .value result =>
    let status :=
      match result.error with
      | some e =>
        { status with errors := status.errors ++ [e.stack.getD e.str], failure := true }
      | none => status
    match cfg.baselines_root with
    | some _ =>
      let acc := state_section cb test env result (may_retry, status)
      screenshot_section cfg test attempt env result.bbox acc
    | none => (may_retry, status)

/-- The `finally` block of `run_test`: fold in the `Tests.clear` outcome. -/
def clear_phase (env : Env) (status : Status) : Status :=
  match env.clear_output with
  | .failure text => { status with errors := status.errors ++ [text], failure := true }
  | _ => status

/-- The body of `async function run_test(attempt, status)`: one attempt of one test.
Returns `(may_retry, status)` — `may_retry` starts `false`.  (Metrics
collection and the device-metrics override have no effect on the status and
carry no model state.) -/
def run_test (cfg : Config) (cb : List State → String) (test : Test)
    (attempt : Option Nat) (env : Env) (status : Status) : Bool × Status :=
  let acc := output_phase cfg cb test attempt env false (console_phase env status)
  (acc.1, clear_phase env acc.2)

/-- The retry `for (let i = 0; i < retries; i++)` loop.  `run1 attempt status`
is one `run_test` attempt.  Returns the final status together with the log of
attempts made inside the loop: each entry is (ordinal tag passed to `run_test`,
the `may_retry` it returned).  The loop breaks at the first attempt that does
not report retry eligibility. -/
def retry_rec (run1 : Option Nat → Status → Bool × Status) :
    Nat → Nat → Status → Status × List (Option Nat × Bool)
  | 0, _, status => (status, [])
  | fuel + 1, i, status =>
    let r := (run1 (some i) status).1
    let s := (run1 (some i) status).2
    if r then
      ((retry_rec run1 fuel (i + 1) s).1,
       (some i, r) :: (retry_rec run1 fuel (i + 1) s).2)
    else (s, [(some i, r)])

/-- The per-test attempt sequence of `run_tests`:
`const do_retry = await run_test(null, status)` followed, when
`(argv.retry || test.retries != null) && do_retry`, by up to
`test.retries ?? 10` retries.  Returns the final status and the full attempt
log (tag, returned `may_retry`), the initial attempt included. -/
def retry_loop (cfg : Config) (test : Test)
    (run1 : Option Nat → Status → Bool × Status) (status : Status) :
    Status × List (Option Nat × Bool) :=
  if (cfg.retry || test.retries.isSome) && (run1 none status).1 then
    ((retry_rec run1 (test.retries.getD 10) 0 ((run1 none status).2)).1,
     (none, (run1 none status).1) ::
       (retry_rec run1 (test.retries.getD 10) 0 ((run1 none status).2)).2)
  else ((run1 none status).2, [(none, (run1 none status).1)])

/-- The encoded baseline name of a flattened pair:
`encode(description(suites, test, "__"))`. -/
def baseline_name_of (suites : List Suite) (test : Test) : String :=
  encode (description suites test "__")

/-- The attempt environments of one test, indexed so that the initial attempt
(`attempt = null`) reads environment `0` and retry ordinal `i` reads
environment `i + 1`. -/
def test_env_run (cfg : Config) (cb : List State → String) (test : Test)
    (envs : Nat → Env) : Option Nat → Status → Bool × Status :=
  fun attempt status =>
    run_test cfg cb test attempt
      (envs (match attempt with | none => 0 | some i => i + 1)) status

/-- The fresh status of one loop iteration with its recorded baseline name
(`status.baseline_name = baseline_name`; `errors` starts empty as built by
`iter`). -/
def initial_status (suites : List Suite) (test : Test) : Status :=
  { baseline_name := some (baseline_name_of suites test) }

/-- The duplicate-name check of the loop:
`if (baseline_names.has(baseline_name)) { status.errors.push("duplicated description"); status.failure = true }`. -/
def mark_duplicate (names : List String) (suites : List Suite) (test : Test)
    (status : Status) : Status :=
  if baseline_name_of suites test ∈ names then
    { status with errors := status.errors ++ ["duplicated description"], failure := true }
  else status

/-- The `else { baseline_names.add(baseline_name) }` half of the check. -/
def updated_names (names : List String) (suites : List Suite) (test : Test) :
    List String :=
  if baseline_name_of suites test ∈ names then names
  else names ++ [baseline_name_of suites test]

/-- The branch `if (test.skip) { status.skipped = true } else { …run with retries… }`. -/
def run_or_skip (cfg : Config) (cb : List State → String) (envs : Nat → Env)
    (test : Test) (status : Status) : Status :=
  if test.skip then { status with skipped := true }
  else (retry_loop cfg test (test_env_run cfg cb test envs) status).1

/-- The `for (const test_case of test_suite)` loop of `run_tests`: per test,
record the encoded baseline name, flag `duplicated description` when the name
was already taken (else add it to the taken set), then either mark the test
skipped or run the attempt sequence.  `envs i k` is the environment of test
`i`'s attempt `k`.  Returns the statuses in test order. -/
def run_all (cfg : Config) (cb : List State → String) (envs : Nat → Nat → Env) :
    List (List Suite × Test) → List String → Nat → List Status
  | [], _, _ => []
  | (suites, test) :: rest, names, idx =>
    run_or_skip cfg cb (envs idx) test
        (mark_duplicate names suites test (initial_status suites test)) ::
      run_all cfg cb envs rest (updated_names names suites test) (idx + 1)

/-- The counter `failures`: the count of tests whose final status is failed or timed out
(`(status.failure ?? false) || (status.timeout ?? false)`). -/
def count_failures (sts : List Status) : Nat :=
  (sts.filter (fun s => s.failure || s.timeout)).length

/-- The test list as the loop sees it: flatten the discovered tree, optionally
shuffle it with the seeded generator, then apply the `-k` keyword and `--grep`
filters, each marking non-matching tests skipped (not removing them). -/
def prepared_suite (cfg : Config) (top : Suite) : List (List Suite × Test) :=
  let all := Suite.iter [] top
  let shuffled :=
    if cfg.randomize then (shuffle all (Random.ofSeed cfg.seed)).1 else all
  let filtered_k :=
    match cfg.keywords with
    | none => shuffled
    | some kws =>
      shuffled.map fun p =>
        (p.1,
         if kws.any (fun kw => str_includes (description p.1 p.2 " ") kw) then p.2
         else { p.2 with skip := true })
  match cfg.grep with
  | none => filtered_k
  | some regexes =>
    filtered_k.map fun p =>
      (p.1,
       if regexes.any (fun re => re (description p.1 p.2 " ")) then p.2
       else { p.2 with skip := true })

/-- On-disk files of the per-platform baselines directory that no test of this
run touched: everything except `report.json`, `report.out` and the
`<name>.blf` / `<name>.png` of each collected baseline name. -/
def orphan_files (disk : List String) (names : List String) : List String :=
  ((disk.filter (fun f => f ≠ "report.json")).filter (fun f => f ≠ "report.out")).filter
    fun f => ¬ names.any (fun n => f = n ++ ".blf" ∨ f = n ++ ".png")

/-- The observable outcome of `run_tests` past navigation: either a `fail(msg)`
before the test loop (an `Exit(1)`), or the loop's statuses together with the
orphaned baseline files and the failure count that decide the exit status. -/
inductive RunOutcome : Type where
  | fatal (msg : String)
  | finished (statuses : List Status) (orphans : List String) (failures : Nat)
deriving DecidableEq, Repr

/-- Model of `run_tests` from test-list preparation onwards: the `nothing to test`
checks guard the loop; afterwards the orphaned-baseline scan (only with a
baselines directory) and the failure count are recorded. -/
def run_tests_model (cfg : Config) (cb : List State → String) (top : Suite)
    (envs : Nat → Nat → Env) (disk : List String) : RunOutcome :=
  let ts := prepared_suite cfg top
  if ts.length = 0 then .fatal "nothing to test"
  else if ts.any (fun it => !it.2.skip) then
    let statuses := run_all cfg cb envs ts [] 0
    let names := ts.map fun it => baseline_name_of it.1 it.2
    let orphans :=
      match cfg.baselines_root with
      | some _ => orphan_files disk names
      | none => []
    .finished statuses orphans (count_failures statuses)
  else .fatal "nothing to test because all tests were skipped"

/-- Whether `run_tests` resolves to `true` (no `Exit` thrown): a pre-loop
`fail` and the post-loop `fail`s (outdated baselines, `failures != 0`) all
surface as `false`. -/
def run_tests_success : RunOutcome → Bool
  | .fatal _ => false
  | .finished _ orphans failures => orphans.isEmpty && failures == 0

/-- The constant `const chromium_min_version = 107`. -/
def chromium_min_version : Nat := 107

/-- The check `check_version(version)`: the regex `Chrome\/(?<major>\d+)\.(\d+)\.(\d+)\.(\d+)`
is modelled by its outcome `major?` (`some m` when the version string matches
with major `m`, `none` otherwise); `parseInt(match?.groups?.major ?? "0")` is
`major?.getD 0`, and the check is `chromium_min_version <= major`. -/
def check_version (major? : Option Nat) : Bool :=
  chromium_min_version ≤ major?.getD 0

/-- The driver `async function run()`:
`ok0 = check_version(browser); ok1 = !argv.info ? await run_tests() : true;
process.exit(ok0 && ok1 ? 0 : 1)`.  Returns the exit code together with
whether `run_tests()` was invoked (which is decided by `--info` alone). -/
def run_model (major? : Option Nat) (info : Bool) (tests_ok : Bool) : Nat × Bool :=
  let ok0 := check_version major?
  let executed := !info
  let ok1 := if info then true else tests_ok
  ((if ok0 && ok1 then 0 else 1), executed)

end Runner

namespace DocModel

/-!
Modelled from the spec: the `Document.from_json` / document-ready behaviour.
Only a test of `Document.from_json` is part of the excerpt (the bug-regression
test asserting that loading a snapshot emits zero events and that the first
render pass ends in a single `DocumentReady` message); the `Document`
implementation itself is not, so this model is built from the spec's words:
attribute writes normally raise a change notification, a bulk snapshot load
suppresses them, and a single synthetic ready signal fires once the first full
render pass (derived range-autocompute changes included) completes.
-/

/-- An externally observable document event: an attribute change record or the
document-ready message. -/
inductive DocEvent : Type where
  | model_changed (model_id : Nat) (attr : String) (value : Int)
  | doc_ready
deriving DecidableEq, Repr

/-- A document: the attribute store of its model graph keyed by
(model id, attribute name), plus whether the ready signal was already sent. -/
structure Document where
  attrs : List ((Nat × String) × Int) := []
  ready_emitted : Bool := false
deriving DecidableEq, Repr

/-- Modelled from the spec: a single attribute write.  It stores the value and
raises one change notification unless suppressed (bulk load) or the write does
not change the value (value-equality bypass). -/
def set_attr (suppress : Bool) (doc : Document) (m : Nat) (a : String) (v : Int) :
    Document × List DocEvent :=
  let old := (doc.attrs.find? (fun e => e.1 == (m, a))).map (fun e => e.2)
  let doc' := { doc with attrs := ((m, a), v) :: doc.attrs.filter (fun e => e.1 ≠ (m, a)) }
  (doc', if suppress ∨ old = some v then [] else [.model_changed m a v])

/-- Apply a list of attribute writes in order, accumulating emitted events. -/
def apply_writes (suppress : Bool) (start : Document × List DocEvent)
    (writes : List ((Nat × String) × Int)) : Document × List DocEvent :=
  writes.foldl
    (fun acc w =>
      ((set_attr suppress acc.1 w.1.1 w.1.2 w.2).1,
       acc.2 ++ (set_attr suppress acc.1 w.1.1 w.1.2 w.2).2))
    start

/-- Modelled from the spec: `from_snapshot(json)` populates the graph through
the ordinary write path with notification suppressed, starting from the empty
document, and returns the document and the events emitted during the load. -/
def from_snapshot (snapshot : List ((Nat × String) × Int)) : Document × List DocEvent :=
  apply_writes true ({}, []) snapshot

/-- Modelled from the spec: a full render pass.  Derived (range-autocompute)
changes go through the ordinary, unsuppressed write path; once the pass
completes, the document-ready signal is emitted — exactly once per initial
load, so only if it has not fired yet. -/
def render_pass (doc : Document) (derived : List ((Nat × String) × Int)) :
    Document × List DocEvent :=
  if (apply_writes false (doc, []) derived).1.ready_emitted then
    ((apply_writes false (doc, []) derived).1, (apply_writes false (doc, []) derived).2)
  else
    ({ (apply_writes false (doc, []) derived).1 with ready_emitted := true },
     (apply_writes false (doc, []) derived).2 ++ [.doc_ready])

end DocModel

namespace Runner

/-! Concrete inputs used by the closed counterexamples and witnesses. -/

/-- A benign attempt environment: the run evaluation fails in-page, nothing
else is reported. -/
def env_plain : Env :=
  { run_output := .failure "boom" }

/-- A `create_baseline` stand-in for concrete runs: serialize a state list by
concatenation. -/
def cb_concat (l : List State) : String :=
  String.join l

/-- Config with no baselines directory and no filters. -/
def cfg_plain : Config :=
  { baselines_root := none, screenshot := .skip }

/-- Config with a baselines directory, screenshot mode `test`, no filters. -/
def cfg_baselines : Config :=
  { baselines_root := some "/b", screenshot := .test }

/-- A test with a pixel threshold of `5` and no retry budget. -/
def test_threshold5 : Test :=
  { description := "t", skip := false, threshold := some 5 }

/-- An attempt environment whose run result carries a consistent state equal to
the stored baseline, and whose captured image differs from the stored reference
image by `3` pixels (at most the threshold of `test_threshold5`). -/
def env_small_diff : Env :=
  { run_output := .value { error := none, time := 0, state := some "S", bbox := some ⟨0, 0, 1, 1⟩ }
    entries := []
    exceptions := []
    state_output := .value (some "S")
    existing_baseline := some "S"
    baseline_diff := ""
    captured_image := [0]
    existing_image := some [1]
    image_diff := some { diff := [2], pixels := 3, percent := "0.01" }
    clear_output := .value () }

/-- A plain non-skipped test. -/
def test_plain : Test := { description := "t", skip := false }

/-- The run result of the inconsistent-state scenario: early snapshot `"A"`. -/
def r_inconsistent : RunResult :=
  { error := none, time := 0, state := some "A", bbox := none }

/-- An attempt environment whose two state snapshots disagree. -/
def env_inconsistent : Env :=
  { run_output := .value r_inconsistent
    state_output := .value (some "B")
    existing_baseline := some "A" }

/-- Two distinct tests with the same description, hence the same encoded
baseline name. -/
def test_dup_a : Test := { description := "same name", skip := false }

/-- Second test of the duplicated pair (skipped, to show the check applies to
skipped tests too). -/
def test_dup_b : Test := { description := "same name", skip := true }

/-- A top-level suite holding the duplicated pair. -/
def top_dup : Suite := .mk "top" [] [test_dup_a, test_dup_b]

/-- A top-level suite with no tests at all. -/
def top_empty : Suite := .mk "top" [] []

/-- The deepest test of the nested witness tree. -/
def test_deep : Test := { description := "deep", skip := false }

/-- The innermost suite of the nested witness tree. -/
def suite_grand : Suite := .mk "grand" [] [test_deep]

/-- The middle suite of the nested witness tree. -/
def suite_child : Suite := .mk "child" [suite_grand] [{ description := "mid", skip := true }]

/-- A nested suite tree for the sequence-identifier round-trip witness. -/
def top_nested : Suite :=
  .mk "top" [suite_child] [{ description := "own", skip := false }]

end Runner

/-! ## Theorems -/

namespace Runner

theorem MAX_INT32_pos : (0 : Int) < MAX_INT32 := by
  unfold MAX_INT32; norm_num

/-- For a positive modulus the JS remainder is strictly above the negated
modulus. -/
theorem neg_lt_tmod (a : Int) {b : Int} (hb : 0 < b) : -b < a.tmod b := by
  rcases a with m | m
  · have h0 : (0 : Int) ≤ (Int.ofNat m).tmod b :=
      Int.tmod_nonneg b (by simp [Int.ofNat_eq_natCast])
    omega
  · rcases b with n | n
    · have hn : 0 < n := by
        by_contra hc
        have : n = 0 := by omega
        subst this
        simp [Int.ofNat_eq_natCast] at hb
      have he : (Int.negSucc m).tmod (Int.ofNat n) = -(Int.ofNat ((m + 1) % n)) := rfl
      rw [he]
      have hlt : (m + 1) % n < n := Nat.mod_lt _ hn
      simp only [Int.ofNat_eq_natCast]
      omega
    · have := Int.negSucc_lt_zero n
      omega

theorem ofSeed_valid (seed : Int) (h : seed.tmod MAX_INT32 ≠ 1 - MAX_INT32) :
    valid_state (Random.ofSeed seed) := by
  have h1 : seed.tmod MAX_INT32 < MAX_INT32 := Int.tmod_lt_of_pos seed MAX_INT32_pos
  have h2 : -MAX_INT32 < seed.tmod MAX_INT32 := neg_lt_tmod seed MAX_INT32_pos
  by_cases hc : seed.tmod MAX_INT32 ≤ 0
  · have he : Random.ofSeed seed = ⟨seed.tmod MAX_INT32 + (MAX_INT32 - 1)⟩ := by
      unfold Random.ofSeed; simp [hc]
    rw [he]
    show 1 ≤ seed.tmod MAX_INT32 + (MAX_INT32 - 1) ∧
      seed.tmod MAX_INT32 + (MAX_INT32 - 1) ≤ MAX_INT32 - 1
    omega
  · have he : Random.ofSeed seed = ⟨seed.tmod MAX_INT32⟩ := by
      unfold Random.ofSeed; simp [hc]
    rw [he]
    show 1 ≤ seed.tmod MAX_INT32 ∧ seed.tmod MAX_INT32 ≤ MAX_INT32 - 1
    omega

theorem coprime_M_48271 : IsCoprime (MAX_INT32) (48271 : ℤ) := by
  rw [Int.isCoprime_iff_gcd_eq_one]
  unfold MAX_INT32
  norm_num

theorem integer_valid (r : Random) (h : valid_state r) :
    valid_state (r.integer).1 := by
  obtain ⟨hlo, hhi⟩ := h
  have hm : (0 : Int) ≤ 48271 * r.seed := by positivity
  have hnn : (0 : Int) ≤ (48271 * r.seed).tmod MAX_INT32 := Int.tmod_nonneg _ hm
  have hlt : (48271 * r.seed).tmod MAX_INT32 < MAX_INT32 :=
    Int.tmod_lt_of_pos _ MAX_INT32_pos
  have hne : (48271 * r.seed).tmod MAX_INT32 ≠ 0 := by
    intro h0
    rw [Int.tmod_eq_emod hm (le_of_lt MAX_INT32_pos)] at h0
    have hdvd : MAX_INT32 ∣ 48271 * r.seed := Int.dvd_of_emod_eq_zero h0
    have hdvd2 : MAX_INT32 ∣ r.seed := by
      have := coprime_M_48271.dvd_of_dvd_mul_left (by rwa [mul_comm] at hdvd)
      exact this
    have := Int.le_of_dvd (by omega) hdvd2
    omega
  unfold Random.integer valid_state
  constructor <;> simp <;> omega

theorem integer_seed_eq (r : Random) : (r.integer).2 = (r.integer).1.seed := rfl

theorem float_valid (r : Random) (h : valid_state r) :
    (0 ≤ (r.float).2 ∧ (r.float).2 < 1) ∧ valid_state (r.float).1 := by
  have hv := integer_valid r h
  obtain ⟨hlo, hhi⟩ := hv
  have hfr : (r.float).1 = (r.integer).1 := rfl
  have hfv : (r.float).2 = (((r.integer).2 : ℚ) - 1) / ((MAX_INT32 : ℚ) - 1) := rfl
  rw [integer_seed_eq] at hfv
  have hM : ((MAX_INT32 : Int) : ℚ) = ((2147483647 : Int) : ℚ) := by norm_num [MAX_INT32]
  have hden : (0 : ℚ) < (MAX_INT32 : ℚ) - 1 := by
    rw [hM]; norm_num
  have hnum0 : (0 : ℚ) ≤ ((r.integer).1.seed : ℚ) - 1 := by
    have : (1 : ℚ) ≤ ((r.integer).1.seed : ℚ) := by exact_mod_cast hlo
    linarith
  refine ⟨⟨?_, ?_⟩, ?_⟩
  · rw [hfv]; exact div_nonneg hnum0 (le_of_lt hden)
  · rw [hfv, div_lt_one hden]
    have : ((r.integer).1.seed : ℚ) ≤ (MAX_INT32 : ℚ) - 1 := by
      have := hhi
      have : ((r.integer).1.seed : ℚ) ≤ ((MAX_INT32 - 1 : Int) : ℚ) := by exact_mod_cast this
      push_cast at this ⊢
      linarith
    linarith
  · rw [hfr]; exact integer_valid r h

theorem swap_index_le (q : ℚ) (i : Nat) (h0 : 0 ≤ q) (h1 : q < 1) :
    swap_index q i ≤ i := by
  unfold swap_index
  have hpos : (0 : ℚ) < (i : ℚ) + 1 := by positivity
  have hlt : q * ((i : ℚ) + 1) < (i : ℚ) + 1 := by
    calc q * ((i : ℚ) + 1) < 1 * ((i : ℚ) + 1) := by
          exact mul_lt_mul_of_pos_right h1 hpos
      _ = (i : ℚ) + 1 := by ring
  have hf : ⌊q * ((i : ℚ) + 1)⌋ < (i : Int) + 1 := by
    rw [Int.floor_lt]
    push_cast
    exact hlt
  have hf0 : 0 ≤ ⌊q * ((i : ℚ) + 1)⌋ := Int.floor_nonneg.mpr (by positivity)
  omega

theorem swapSeq_bounds : ∀ (n : Nat) (r : Random), valid_state r →
    ∀ p ∈ swapSeq r n, p.2 ≤ p.1 ∧ 1 ≤ p.1 ∧ p.1 ≤ n := by
  intro n
  induction n with
  | zero => intro r _ p hp; simp [swapSeq] at hp
  | succ n ih =>
    intro r hr p hp
    obtain ⟨⟨hq0, hq1⟩, hv'⟩ := float_valid r hr
    rw [swapSeq] at hp
    rcases List.mem_cons.mp hp with h | h
    · subst h
      exact ⟨swap_index_le _ _ hq0 hq1, by omega, le_refl _⟩
    · have := ih (r.float).1 hv' p h
      omega

theorem swapAt_length {α : Type} (l : List α) (i j : Nat) :
    (swapAt l i j).length = l.length := by
  unfold swapAt
  split <;> simp

theorem swapAt_eq_set_set {α : Type} (l : List α) (i j : Nat)
    (hi : i < l.length) (hj : j < l.length) :
    swapAt l i j = (l.set i l[j]).set j l[i] := by
  unfold swapAt
  rw [List.getElem?_eq_getElem hi, List.getElem?_eq_getElem hj]

theorem swapAt_perm {α : Type} [DecidableEq α] (l : List α) (i j : Nat)
    (hi : i < l.length) (hj : j < l.length) : (swapAt l i j).Perm l := by
  rw [swapAt_eq_set_set l i j hi hj]
  rw [List.perm_iff_count]
  intro x
  have hj' : j < (l.set i l[j]).length := by simpa using hj
  rw [List.count_set _ _ _ _ hj', List.count_set _ _ _ _ hi]
  have hget : (l.set i l[j])[j] = l[j] := by
    rw [List.getElem_set]
    split <;> rfl
  rw [hget]
  have hA : (if (l[i] == x) = true then 1 else 0) ≤ List.count x l := by
    split
    · rename_i hax
      have hix : l[i] = x := by simpa using hax
      have hmem : x ∈ l := hix ▸ List.getElem_mem hi
      simpa using List.count_pos_iff.mpr hmem
    · exact Nat.zero_le _
  omega

theorem shuffleAux_eq_applySwaps {α : Type} :
    ∀ (n : Nat) (l : List α) (r : Random),
      (shuffleAux l r n).1 = applySwaps (swapSeq r n) l := by
  intro n
  induction n with
  | zero => intro l r; rfl
  | succ n ih =>
    intro l r
    rw [shuffleAux, swapSeq]
    rw [ih]
    rfl

theorem shuffleAux_perm {α : Type} [DecidableEq α] :
    ∀ (n : Nat) (l : List α) (r : Random), valid_state r → n ≤ l.length - 1 →
      ((shuffleAux l r n).1).Perm l := by
  intro n
  induction n with
  | zero => intro l r _ _; exact List.Perm.refl l
  | succ n ih =>
    intro l r hr hn
    obtain ⟨⟨hq0, hq1⟩, hv'⟩ := float_valid r hr
    rw [shuffleAux]
    have hi : n + 1 < l.length := by omega
    have hj : swap_index (r.float).2 (n + 1) < l.length :=
      lt_of_le_of_lt (le_trans (swap_index_le _ _ hq0 hq1) (le_refl _)) hi
    have hlen : (swapAt l (n + 1) (swap_index (r.float).2 (n + 1))).length = l.length :=
      swapAt_length l _ _
    have hrec := ih (swapAt l (n + 1) (swap_index (r.float).2 (n + 1))) (r.float).1 hv'
      (by omega)
    exact hrec.trans (swapAt_perm l _ _ hi hj)

/-- C3: for every generator state (in particular, one constructed from any
seed) and every pair of equal-length lists, the two shuffles apply the one swap
sequence `swapSeq` determined by the state and the length alone, so the
resulting order is a deterministic function of seed and list length. -/
theorem c3_shuffle_deterministic {α β : Type} (r : Random)
    (a : List α) (b : List β) (h : a.length = b.length) :
    (shuffle a r).1 = applySwaps (swapSeq r (a.length - 1)) a ∧
    (shuffle b r).1 = applySwaps (swapSeq r (a.length - 1)) b := by
  constructor
  · exact shuffleAux_eq_applySwaps (a.length - 1) a r
  · rw [h]
    exact shuffleAux_eq_applySwaps (b.length - 1) b r

theorem c3_shuffle_deterministic_witness :
    ([1, 2, 3].length = (["x", "y", "z"] : List String).length) ∧
    ((shuffle [1, 2, 3] (Random.ofSeed 7)).1 =
        applySwaps (swapSeq (Random.ofSeed 7) ([1, 2, 3].length - 1)) [1, 2, 3] ∧
      (shuffle ["x", "y", "z"] (Random.ofSeed 7)).1 =
        applySwaps (swapSeq (Random.ofSeed 7) ([1, 2, 3].length - 1)) ["x", "y", "z"]) :=
  ⟨by decide, c3_shuffle_deterministic (Random.ofSeed 7) [1, 2, 3] ["x", "y", "z"] (by decide)⟩

/-- C10 (counterexample): the constructor does not establish the claimed state
invariant for every seed.  At seed `-2147483646` (negative and congruent to
`1` modulo `2^31 - 1`), the JS remainder is `-2147483646 <= 0`, so the
constructor adds `2^31 - 2` and the state becomes `0`, outside `[1, 2^31-2]`.
From state `0` every `integer()` returns `0` and `float()` is negative. -/
theorem c10_state_invariant_counterexample :
    (Random.ofSeed (-2147483646)).seed = 0 ∧
    ¬ valid_state (Random.ofSeed (-2147483646)) := by
  constructor
  · decide
  · decide

/-- C10 (amended): for every constructor seed except the negative seeds
congruent to `1` modulo `2^31 - 1` (JS remainder `2 - 2^31`) — in particular
for every nonnegative seed — the generator state lies in `[1, 2^31 - 2]` after
construction and after every `integer()` call, every `float()` result lies in
`[0, 1)`, the swap partner never exceeds the loop index, and `shuffle` returns
a permutation of its input. -/
theorem c10_state_invariant {α : Type} (seed : Int)
    (h : seed.tmod MAX_INT32 ≠ 1 - MAX_INT32) :
    valid_state (Random.ofSeed seed) ∧
    (∀ r : Random, valid_state r → valid_state (r.integer).1) ∧
    (∀ r : Random, valid_state r → 0 ≤ (r.float).2 ∧ (r.float).2 < 1) ∧
    (∀ (r : Random) (n : Nat), valid_state r →
      ∀ p ∈ swapSeq r n, p.2 ≤ p.1 ∧ 1 ≤ p.1 ∧ p.1 ≤ n) ∧
    (∀ (a : List α) (r : Random), valid_state r → ((shuffle a r).1).Perm a) := by
  refine ⟨ofSeed_valid seed h, integer_valid, ?_, ?_, ?_⟩
  · intro r hr
    exact (float_valid r hr).1
  · intro r n hr p hp
    exact swapSeq_bounds n r hr p hp
  · intro a r hr
    classical
    exact shuffleAux_perm (a.length - 1) a r hr (le_refl _)

theorem c10_state_invariant_witness :
    ((1 : Int).tmod MAX_INT32 ≠ 1 - MAX_INT32) ∧
    (valid_state (Random.ofSeed 1) ∧
      (∀ r : Random, valid_state r → valid_state (r.integer).1) ∧
      (∀ r : Random, valid_state r → 0 ≤ (r.float).2 ∧ (r.float).2 < 1) ∧
      (∀ (r : Random) (n : Nat), valid_state r →
        ∀ p ∈ swapSeq r n, p.2 ≤ p.1 ∧ 1 ≤ p.1 ∧ p.1 ≤ n) ∧
      (∀ (a : List Nat) (r : Random), valid_state r → ((shuffle a r).1).Perm a)) :=
  ⟨by decide, c10_state_invariant 1 (by decide)⟩

/-- C4 (counterexample): with a reported Chrome major version of `106 < 107`
and `--info` not set, `run()` still invokes `run_tests()` — the version check
only feeds the final exit code, it does not stop the tests from running.  The
second component of `run_model` records whether `run_tests()` was invoked;
here it is `true` even though the version is unsupported (refuting "no tests
are executed"), while the exit code is `1` as claimed. -/
theorem c4_unsupported_version_counterexample :
    (run_model (some 106) false true).2 = true ∧
    (run_model (some 106) false true).1 = 1 := by
  constructor <;> decide

/-- C4 (amended): if the connected browser reports a Chrome major version
below `chromium_min_version = 107`, the process exits with code `1` regardless
of the test results — but the tests are still executed whenever `--info` is
not set; the check only forces the nonzero exit code. -/
theorem c4_unsupported_version_exits_1 (m : Nat) (hm : m < chromium_min_version)
    (info : Bool) (tests_ok : Bool) :
    (run_model (some m) info tests_ok).1 = 1 ∧
    (run_model (some m) info tests_ok).2 = !info := by
  have hv : check_version (some m) = false := by
    unfold chromium_min_version at hm
    unfold check_version chromium_min_version
    simp only [Option.getD_some, decide_eq_false_iff_not]
    omega
  unfold run_model
  rw [hv]
  simp

theorem c4_unsupported_version_exits_1_witness :
    (106 < chromium_min_version) ∧
    ((run_model (some 106) false true).1 = 1 ∧
      (run_model (some 106) false true).2 = !false) :=
  ⟨by decide, c4_unsupported_version_exits_1 106 (by decide) false true⟩

mutual

theorem iter_shift (parents : List Suite) (s : Suite) :
    Suite.iter parents s = (Suite.iter [] s).map (fun q => (parents ++ q.1, q.2)) := by
  match s with
  | .mk d cs ts =>
    rw [Suite.iter, Suite.iter]
    rw [iterAll_shift parents cs, iterAll_shift [] cs]
    simp [List.map_map, Function.comp]

theorem iterAll_shift (parents : List Suite) (cs : List Suite) :
    Suite.iterAll parents cs = (Suite.iterAll [] cs).map (fun q => (parents ++ q.1, q.2)) := by
  match cs with
  | [] => rfl
  | s :: rest =>
    rw [Suite.iterAll, Suite.iterAll]
    rw [List.map_append]
    simp only [List.nil_append]
    rw [iterAll_shift parents rest, iterAll_shift [] rest]
    rw [iter_shift (parents ++ [s]) s, iter_shift [s] s]
    simp [List.map_map, Function.comp, List.append_assoc]

end

theorem mem_iterAll (parents : List Suite) (cs : List Suite)
    (p : List Suite) (t : Test) :
    (p, t) ∈ Suite.iterAll parents cs ↔
      ∃ s ∈ cs, (p, t) ∈ Suite.iter (parents ++ [s]) s := by
  induction cs with
  | nil => simp [Suite.iterAll]
  | cons s rest ih =>
    rw [Suite.iterAll]
    simp only [List.mem_append, ih, List.mem_cons]
    constructor
    · rintro (h | ⟨s', hs', h⟩)
      · exact ⟨s, Or.inl rfl, h⟩
      · exact ⟨s', Or.inr hs', h⟩
    · rintro ⟨s', hs' | hs', h⟩
      · subst hs'; exact Or.inl h
      · exact Or.inr ⟨s', hs', h⟩

theorem mem_iter_inv (d : String) (cs : List Suite) (ts : List Test)
    (p : List Suite) (t : Test) :
    (p, t) ∈ Suite.iter [] (.mk d cs ts) ↔
      (∃ s ∈ cs, ∃ q, p = s :: q ∧ (q, t) ∈ Suite.iter [] s) ∨ (p = [] ∧ t ∈ ts) := by
  rw [Suite.iter]
  simp only [List.mem_append, mem_iterAll]
  constructor
  · rintro (⟨s, hs, h⟩ | h)
    · rw [iter_shift] at h
      simp only [List.nil_append, List.mem_map] at h
      obtain ⟨q, hq, hpq⟩ := h
      have h1 : [s] ++ q.1 = p := congrArg Prod.fst hpq
      have h2 : q.2 = t := congrArg Prod.snd hpq
      refine Or.inl ⟨s, hs, q.1, ?_, ?_⟩
      · rw [← h1]
        rfl
      · rw [← h2]
        exact hq
    · right
      simp only [List.mem_map] at h
      obtain ⟨t', ht', he⟩ := h
      have h1 : ([] : List Suite) = p := congrArg Prod.fst he
      have h2 : t' = t := congrArg Prod.snd he
      exact ⟨h1.symm, h2 ▸ ht'⟩
  · rintro (⟨s, hs, q, hpq, hmem⟩ | ⟨hp, ht⟩)
    · left
      refine ⟨s, hs, ?_⟩
      rw [iter_shift ([] ++ [s]) s]
      simp only [List.nil_append, List.mem_map]
      refine ⟨(q, t), hmem, ?_⟩
      rw [hpq]
      rfl
    · right
      subst hp
      exact List.mem_map.mpr ⟨t, ht, rfl⟩

/-- C8: every pair produced by flattening the discovered suite tree is located
exactly by its positional sequence identifiers when they are followed from the
top-level suite.  (The flattened sequence is `Suite.iter [] top` itself — child
suites in declaration order, then the suite's own tests — so quantifying over
its members quantifies over that sequence in order.) -/
theorem c8_to_seq_locates (top : Suite) (p : List Suite) (t : Test)
    (hmem : (p, t) ∈ Suite.iter [] top) :
    resolve top (to_seq top p t).1 (to_seq top p t).2 = some (p, t) := by
  unfold to_seq
  induction p generalizing top with
  | nil =>
    obtain ⟨d, cs, ts⟩ := top
    have ht : t ∈ Suite.tests (.mk d cs ts) := by
      rcases (mem_iter_inv d cs ts [] t).mp hmem with ⟨s, _, q, hq, _⟩ | ⟨_, ht⟩
      · exact absurd hq (by simp)
      · exact ht
    rw [to_seqAux, resolve]
    have hlt : (Suite.tests (.mk d cs ts)).indexOf t < (Suite.tests (.mk d cs ts)).length :=
      List.indexOf_lt_length.mpr ht
    rw [List.getElem?_eq_getElem hlt]
    rw [List.getElem_indexOf hlt]
    rfl
  | cons s q ih =>
    obtain ⟨d, cs, ts⟩ := top
    have hinv := (mem_iter_inv d cs ts (s :: q) t).mp hmem
    rcases hinv with ⟨s', hs', q', hq', hmem'⟩ | ⟨hp, _⟩
    · injection hq' with h1 h2
      subst h1
      subst h2
      rw [to_seqAux, resolve]
      have hsmem : s ∈ Suite.suites (.mk d cs ts) := hs'
      have hlt : (Suite.suites (.mk d cs ts)).indexOf s < (Suite.suites (.mk d cs ts)).length :=
        List.indexOf_lt_length.mpr hsmem
      rw [List.getElem?_eq_getElem hlt]
      rw [List.getElem_indexOf hlt]
      show Option.map (fun p => (s :: p.1, p.2))
        (resolve s (to_seqAux t s q).1 (to_seqAux t s q).2) = some (s :: q, t)
      rw [ih s hmem']
      rfl
    · exact absurd hp (by simp)

theorem c8_to_seq_locates_witness :
    (([suite_child, suite_grand], test_deep) ∈ Suite.iter [] top_nested) ∧
    resolve top_nested
        (to_seq top_nested [suite_child, suite_grand] test_deep).1
        (to_seq top_nested [suite_child, suite_grand] test_deep).2 =
      some ([suite_child, suite_grand], test_deep) :=
  ⟨by decide, c8_to_seq_locates top_nested [suite_child, suite_grand] test_deep (by decide)⟩

theorem state_section_keeps (cb : List State → String) (test : Test) (env : Env)
    (result : RunResult) (m : Bool) (s : Status) (e : String)
    (hf : s.failure = true) (he : e ∈ s.errors) :
    (state_section cb test env result (m, s)).2.failure = true ∧
    e ∈ (state_section cb test env result (m, s)).2.errors := by
  unfold state_section
  rcases result.state with _ | se
  · simp [he, List.mem_append]
  · rcases env.state_output with v | txt | _
    · rcases v with _ | st
      · simp [he, List.mem_append]
      · simp only []
        split
        · simp [he, List.mem_append]
        · split
          · split <;> split <;> simp [hf, he, List.mem_append]
          · simp [hf, he]
    · simp [he, List.mem_append]
    · simp [he, List.mem_append]

theorem screenshot_section_keeps (cfg : Config) (test : Test) (attempt : Option Nat)
    (env : Env) (bbox : Option Box) (m : Bool) (s : Status) (e : String)
    (hf : s.failure = true) (he : e ∈ s.errors) :
    (screenshot_section cfg test attempt env bbox (m, s)).2.failure = true ∧
    e ∈ (screenshot_section cfg test attempt env bbox (m, s)).2.errors := by
  unfold screenshot_section
  rcases bbox with _ | b
  · simp [hf, he]
  · rcases cfg.screenshot with _ | _ | _
    · rcases env.existing_image with _ | ex
      · simp [he, List.mem_append]
      · simp only []
        split
        · rcases env.image_diff with _ | dr
          · simp [hf, he]
          · simp only []
            split <;> simp [hf, he, List.mem_append]
        · simp [hf, he]
    · simp [hf, he]
    · simp [hf, he]

theorem console_phase_keeps (env : Env) (s : Status) (e : String)
    (hf : s.failure = true) (he : e ∈ s.errors) :
    (console_phase env s).failure = true ∧ e ∈ (console_phase env s).errors := by
  by_cases h1 :
    ((env.entries.filter (fun e => e.level == LogLevel.error)).map LogEntry.text) ≠ []
  all_goals by_cases h2 : env.exceptions ≠ []
  all_goals simp [console_phase, h1, h2, hf, he, List.mem_append]

theorem clear_phase_keeps (env : Env) (s : Status) (e : String)
    (hf : s.failure = true) (he : e ∈ s.errors) :
    (clear_phase env s).failure = true ∧ e ∈ (clear_phase env s).errors := by
  unfold clear_phase
  split <;> simp [hf, he, List.mem_append]

theorem output_phase_keeps (cfg : Config) (cb : List State → String) (test : Test)
    (attempt : Option Nat) (env : Env) (m : Bool) (s : Status) (e : String)
    (hf : s.failure = true) (he : e ∈ s.errors) :
    (output_phase cfg cb test attempt env m s).2.failure = true ∧
    e ∈ (output_phase cfg cb test attempt env m s).2.errors := by
  unfold output_phase
  rcases env.run_output with result | txt | _
  · rcases cfg.baselines_root with _ | root
    · rcases herr : result.error with _ | err <;> simp [herr, hf, he, List.mem_append]
    · rcases herr : result.error with _ | err
      · simp only [herr]
        have h1 := state_section_keeps cb test env result m s e hf he
        exact screenshot_section_keeps cfg test attempt env result.bbox
          (state_section cb test env result (m, s)).1
          (state_section cb test env result (m, s)).2 e h1.1 h1.2
      · simp only [herr]
        have hf1 : ({ s with
            errors := s.errors ++ [err.stack.getD err.str],
            failure := true } : Status).failure = true := rfl
        have he1 : e ∈ ({ s with
            errors := s.errors ++ [err.stack.getD err.str],
            failure := true } : Status).errors := by simp [he, List.mem_append]
        have h2 := state_section_keeps cb test env result m
          { s with errors := s.errors ++ [err.stack.getD err.str], failure := true } e hf1 he1
        exact screenshot_section_keeps cfg test attempt env result.bbox
          (state_section cb test env result
            (m, { s with errors := s.errors ++ [err.stack.getD err.str], failure := true })).1
          (state_section cb test env result
            (m, { s with errors := s.errors ++ [err.stack.getD err.str], failure := true })).2
          e h2.1 h2.2
  · simp [he, List.mem_append]
  · simp [hf, he, List.mem_append]

theorem run_test_keeps (cfg : Config) (cb : List State → String) (test : Test)
    (attempt : Option Nat) (env : Env) (s : Status) (e : String)
    (hf : s.failure = true) (he : e ∈ s.errors) :
    (run_test cfg cb test attempt env s).2.failure = true ∧
    e ∈ (run_test cfg cb test attempt env s).2.errors := by
  unfold run_test
  obtain ⟨hf1, he1⟩ := console_phase_keeps env s e hf he
  obtain ⟨hf2, he2⟩ := output_phase_keeps cfg cb test attempt env false _ e hf1 he1
  exact clear_phase_keeps env _ e hf2 he2

theorem retry_rec_keeps (run1 : Option Nat → Status → Bool × Status)
    (hrun : ∀ a s e, s.failure = true → e ∈ s.errors →
      (run1 a s).2.failure = true ∧ e ∈ (run1 a s).2.errors) :
    ∀ (fuel i : Nat) (s : Status) (e : String), s.failure = true → e ∈ s.errors →
      (retry_rec run1 fuel i s).1.failure = true ∧
      e ∈ (retry_rec run1 fuel i s).1.errors := by
  intro fuel
  induction fuel with
  | zero => intro i s e hf he; exact ⟨hf, he⟩
  | succ n ih =>
    intro i s e hf he
    rw [retry_rec]
    obtain ⟨hf1, he1⟩ := hrun (some i) s e hf he
    split
    · exact ih (i + 1) _ e hf1 he1
    · exact ⟨hf1, he1⟩

theorem retry_loop_keeps (cfg : Config) (test : Test)
    (run1 : Option Nat → Status → Bool × Status)
    (hrun : ∀ a s e, s.failure = true → e ∈ s.errors →
      (run1 a s).2.failure = true ∧ e ∈ (run1 a s).2.errors)
    (s : Status) (e : String) (hf : s.failure = true) (he : e ∈ s.errors) :
    (retry_loop cfg test run1 s).1.failure = true ∧
    e ∈ (retry_loop cfg test run1 s).1.errors := by
  unfold retry_loop
  obtain ⟨hf0, he0⟩ := hrun none s e hf he
  split
  · exact retry_rec_keeps run1 hrun (test.retries.getD 10) 0 _ e hf0 he0
  · exact ⟨hf0, he0⟩

theorem retry_rec_length (run1 : Option Nat → Status → Bool × Status) :
    ∀ (fuel i : Nat) (s : Status), (retry_rec run1 fuel i s).2.length ≤ fuel := by
  intro fuel
  induction fuel with
  | zero => intro i s; simp [retry_rec]
  | succ n ih =>
    intro i s
    rw [retry_rec]
    split
    · simpa using Nat.succ_le_succ (ih (i + 1) ((run1 (some i) s).2))
    · simp

theorem retry_rec_tags (run1 : Option Nat → Status → Bool × Status) :
    ∀ (fuel i : Nat) (s : Status),
      (retry_rec run1 fuel i s).2.map Prod.fst =
        (List.range' i (retry_rec run1 fuel i s).2.length).map some := by
  intro fuel
  induction fuel with
  | zero => intro i s; simp [retry_rec]
  | succ n ih =>
    intro i s
    rw [retry_rec]
    split
    · simp only [List.map_cons, List.length_cons, List.range'_succ]
      rw [ih (i + 1) ((run1 (some i) s).2)]
    · simp [List.range'_succ]

theorem retry_rec_stops (run1 : Option Nat → Status → Bool × Status) :
    ∀ (fuel i : Nat) (s : Status) (k : Nat) (p : Option Nat × Bool),
      k + 1 < (retry_rec run1 fuel i s).2.length →
      (retry_rec run1 fuel i s).2[k]? = some p → p.2 = true := by
  intro fuel
  induction fuel with
  | zero => intro i s k p hk; simp [retry_rec] at hk
  | succ n ih =>
    intro i s k p hk hget
    rw [retry_rec] at hk hget
    by_cases hr : (run1 (some i) s).1 = true
    · rw [if_pos hr] at hk hget
      match k with
      | 0 =>
        simp only [List.getElem?_cons_zero, Option.some.injEq] at hget
        rw [← hget]
        exact hr
      | k' + 1 =>
        simp only [List.length_cons, Nat.add_lt_add_iff_right] at hk
        simp only [List.getElem?_cons_succ] at hget
        exact ih (i + 1) _ k' p hk hget
    · rw [if_neg hr] at hk
      simp at hk

/-- C6: the per-test attempt sequence makes at most `1 + (test.retries ?? 10)`
attempts; the initial attempt is untagged and each retry attempt is tagged
with its ordinal `0, 1, 2, …`; every attempt except the last reported retry
eligibility (the loop stops at the first attempt that does not); and more than
one attempt happens only when the test is retry-eligible (`--retry` set or a
declared retry budget). -/
theorem c6_retry_budget (cfg : Config) (test : Test)
    (run1 : Option Nat → Status → Bool × Status) (status : Status) :
    (retry_loop cfg test run1 status).2.length ≤ 1 + test.retries.getD 10 ∧
    (retry_loop cfg test run1 status).2.map Prod.fst =
      none :: (List.range ((retry_loop cfg test run1 status).2.length - 1)).map some ∧
    (∀ (k : Nat) (p : Option Nat × Bool),
      k + 1 < (retry_loop cfg test run1 status).2.length →
      (retry_loop cfg test run1 status).2[k]? = some p → p.2 = true) ∧
    (1 < (retry_loop cfg test run1 status).2.length →
      (cfg.retry || test.retries.isSome) = true) := by
  unfold retry_loop
  split
  · rename_i hcond
    refine ⟨?_, ?_, ?_, ?_⟩
    · have h := retry_rec_length run1 (test.retries.getD 10) 0 ((run1 none status).2)
      simp only [List.length_cons]
      omega
    · simp only [List.map_cons, List.length_cons]
      rw [retry_rec_tags run1 (test.retries.getD 10) 0 ((run1 none status).2)]
      rw [List.range_eq_range']
      simp
    · intro k p hk hget
      match k with
      | 0 =>
        simp only [List.getElem?_cons_zero, Option.some.injEq] at hget
        rw [← hget]
        exact ((Bool.and_eq_true _ _).mp hcond).2
      | k' + 1 =>
        simp only [List.length_cons, Nat.add_lt_add_iff_right] at hk
        simp only [List.getElem?_cons_succ] at hget
        exact retry_rec_stops run1 (test.retries.getD 10) 0 _ k' p hk hget
    · intro _
      exact ((Bool.and_eq_true _ _).mp hcond).1
  · refine ⟨by simp, by simp, ?_, by simp⟩
    intro k p hk
    simp at hk

theorem run_all_length (cfg : Config) (cb : List State → String)
    (envs : Nat → Nat → Env) :
    ∀ (items : List (List Suite × Test)) (names : List String) (idx : Nat),
      (run_all cfg cb envs items names idx).length = items.length := by
  intro items
  induction items with
  | nil => intro names idx; rfl
  | cons hd rest ih =>
    intro names idx
    obtain ⟨suites, test⟩ := hd
    rw [run_all]
    simp [ih]

theorem mark_duplicate_hit (names : List String) (suites : List Suite) (test : Test)
    (status : Status) (h : baseline_name_of suites test ∈ names) :
    (mark_duplicate names suites test status).failure = true ∧
    "duplicated description" ∈ (mark_duplicate names suites test status).errors := by
  unfold mark_duplicate
  rw [if_pos h]
  simp

theorem run_or_skip_keeps (cfg : Config) (cb : List State → String)
    (envs : Nat → Env) (test : Test) (status : Status) (e : String)
    (hf : status.failure = true) (he : e ∈ status.errors) :
    (run_or_skip cfg cb envs test status).failure = true ∧
    e ∈ (run_or_skip cfg cb envs test status).errors := by
  unfold run_or_skip
  split
  · exact ⟨hf, he⟩
  · exact retry_loop_keeps cfg test _
      (fun a s e1 hf1 he1 => run_test_keeps cfg cb test a _ s e1 hf1 he1)
      status e hf he

theorem mem_updated_names (names : List String) (suites : List Suite) (test : Test)
    (x : String) (h : x ∈ names ∨ x = baseline_name_of suites test) :
    x ∈ updated_names names suites test := by
  unfold updated_names
  rcases h with h | h
  · split
    · exact h
    · exact List.mem_append_left _ h
  · subst h
    split
    · assumption
    · exact List.mem_append_right _ (by simp)

theorem run_all_dup (cfg : Config) (cb : List State → String) (envs : Nat → Nat → Env) :
    ∀ (items : List (List Suite × Test)) (names : List String) (idx j : Nat)
      (it : List Suite × Test),
      items[j]? = some it →
      (baseline_name_of it.1 it.2 ∈ names ∨
        ∃ i, i < j ∧ ∃ it', items[i]? = some it' ∧
          baseline_name_of it'.1 it'.2 = baseline_name_of it.1 it.2) →
      ∃ st, (run_all cfg cb envs items names idx)[j]? = some st ∧
        st.failure = true ∧ "duplicated description" ∈ st.errors := by
  intro items
  induction items with
  | nil => intro names idx j it hj; simp at hj
  | cons hd rest ih =>
    intro names idx j it hj hdup
    obtain ⟨suites, test⟩ := hd
    match j with
    | 0 =>
      simp only [List.getElem?_cons_zero, Option.some.injEq] at hj
      subst hj
      have hname : baseline_name_of suites test ∈ names := by
        rcases hdup with h | ⟨i, hi, _⟩
        · exact h
        · omega
      rw [run_all]
      refine ⟨run_or_skip cfg cb (envs idx) test
        (mark_duplicate names suites test (initial_status suites test)), by simp, ?_⟩
      obtain ⟨hf, he⟩ := mark_duplicate_hit names suites test (initial_status suites test) hname
      exact run_or_skip_keeps cfg cb (envs idx) test _ _ hf he
    | j' + 1 =>
      simp only [List.getElem?_cons_succ] at hj
      rw [run_all]
      simp only [List.getElem?_cons_succ]
      refine ih (updated_names names suites test) (idx + 1) j' it hj ?_
      rcases hdup with h | ⟨i, hi, it', hit', hnames⟩
      · exact Or.inl (mem_updated_names names suites test _ (Or.inl h))
      · match i with
        | 0 =>
          simp only [List.getElem?_cons_zero, Option.some.injEq] at hit'
          subst hit'
          exact Or.inl (mem_updated_names names suites test _ (Or.inr hnames.symm))
        | i' + 1 =>
          simp only [List.getElem?_cons_succ] at hit'
          exact Or.inr ⟨i', by omega, it', hit', hnames⟩

theorem count_failures_pos (sts : List Status) (st : Status)
    (hmem : st ∈ sts) (hf : st.failure = true) : count_failures sts ≠ 0 := by
  unfold count_failures
  have : st ∈ sts.filter (fun s => s.failure || s.timeout) :=
    List.mem_filter.mpr ⟨hmem, by simp [hf]⟩
  have := List.length_pos.mpr (List.ne_nil_of_mem this)
  omega

theorem run_tests_model_eq (cfg : Config) (cb : List State → String) (top : Suite)
    (envs : Nat → Nat → Env) (disk : List String) :
    run_tests_model cfg cb top envs disk =
      if (prepared_suite cfg top).length = 0 then .fatal "nothing to test"
      else if (prepared_suite cfg top).any (fun it => !it.2.skip) then
        .finished (run_all cfg cb envs (prepared_suite cfg top) [] 0)
          (match cfg.baselines_root with
           | some _ => orphan_files disk
              ((prepared_suite cfg top).map fun it => baseline_name_of it.1 it.2)
           | none => [])
          (count_failures (run_all cfg cb envs (prepared_suite cfg top) [] 0))
      else .fatal "nothing to test because all tests were skipped" := rfl

/-- C1: if two tests of the prepared (flattened, shuffled, filtered) suite have
the same encoded baseline name, the later one's status is marked failed and
records the error `duplicated description` — whether it is skipped or not, and
whatever its own attempts would report — and the whole run fails: `run_tests`
resolves unsuccessfully and the process exit code is `1`. -/
theorem c1_duplicate_name_fails (cfg : Config) (cb : List State → String)
    (top : Suite) (envs : Nat → Nat → Env) (disk : List String)
    (i j : Nat) (iti itj : List Suite × Test)
    (hij : i < j)
    (hi : (prepared_suite cfg top)[i]? = some iti)
    (hj : (prepared_suite cfg top)[j]? = some itj)
    (hname : baseline_name_of iti.1 iti.2 = baseline_name_of itj.1 itj.2) :
    (∃ st, (run_all cfg cb envs (prepared_suite cfg top) [] 0)[j]? = some st ∧
      st.failure = true ∧ "duplicated description" ∈ st.errors) ∧
    run_tests_success (run_tests_model cfg cb top envs disk) = false ∧
    ∀ major? : Option Nat, (run_model major? false
      (run_tests_success (run_tests_model cfg cb top envs disk))).1 = 1 := by
  have hpart1 := run_all_dup cfg cb envs (prepared_suite cfg top) [] 0 j itj hj
    (Or.inr ⟨i, hij, iti, hi, hname⟩)
  have hsucc : run_tests_success (run_tests_model cfg cb top envs disk) = false := by
    rw [run_tests_model_eq]
    by_cases h0 : (prepared_suite cfg top).length = 0
    · rw [if_pos h0]; rfl
    · rw [if_neg h0]
      by_cases h1 : (prepared_suite cfg top).any (fun it => !it.2.skip) = true
      · rw [if_pos h1]
        obtain ⟨st, hget, hf, _⟩ := hpart1
        have hmem : st ∈ run_all cfg cb envs (prepared_suite cfg top) [] 0 := by
          obtain ⟨hlt, hEq⟩ := List.getElem?_eq_some_iff.mp hget
          exact hEq ▸ List.getElem_mem hlt
        have hcount := count_failures_pos _ st hmem hf
        have hbeq : (count_failures
            (run_all cfg cb envs (prepared_suite cfg top) [] 0) == 0) = false := by
          simp [hcount]
        simp only [run_tests_success]
        rw [hbeq, Bool.and_false]
      · rw [if_neg h1]; rfl
  refine ⟨hpart1, hsucc, ?_⟩
  intro major?
  rw [hsucc]
  unfold run_model
  simp

theorem c1_duplicate_name_fails_witness :
    ((0 < 1) ∧
      (prepared_suite cfg_plain top_dup)[0]? = some ([], test_dup_a) ∧
      (prepared_suite cfg_plain top_dup)[1]? = some ([], test_dup_b) ∧
      baseline_name_of [] test_dup_a = baseline_name_of [] test_dup_b) ∧
    ((∃ st, (run_all cfg_plain cb_concat (fun _ _ => env_plain)
        (prepared_suite cfg_plain top_dup) [] 0)[1]? = some st ∧
      st.failure = true ∧ "duplicated description" ∈ st.errors) ∧
    run_tests_success (run_tests_model cfg_plain cb_concat top_dup
      (fun _ _ => env_plain) []) = false ∧
    ∀ major? : Option Nat, (run_model major? false
      (run_tests_success (run_tests_model cfg_plain cb_concat top_dup
        (fun _ _ => env_plain) []))).1 = 1) :=
  ⟨⟨by decide, by decide, by decide, by decide⟩,
    c1_duplicate_name_fails cfg_plain cb_concat top_dup (fun _ _ => env_plain) []
      0 1 ([], test_dup_a) ([], test_dup_b) (by decide) (by decide) (by decide) (by decide)⟩

/-- C7: when the prepared suite is empty, or every test in it is marked skip
(declared in the suite or induced by the keyword/regex filters, which
`prepared_suite` has already applied), `run_tests` fails fatally before the
test loop with a "nothing to test" message, the run resolves unsuccessfully
with process exit code 1, and no test is executed — the outcome does not
depend on the attempt environments, the disk contents, or the serializer. -/
theorem c7_nothing_to_test (cfg : Config) (cb : List State → String) (top : Suite)
    (envs : Nat → Nat → Env) (disk : List String)
    (h : prepared_suite cfg top = [] ∨
      ∀ it ∈ prepared_suite cfg top, it.2.skip = true) :
    (∃ msg, run_tests_model cfg cb top envs disk = .fatal msg ∧
      (msg = "nothing to test" ∨
        msg = "nothing to test because all tests were skipped")) ∧
    run_tests_success (run_tests_model cfg cb top envs disk) = false ∧
    (∀ (cb' : List State → String) (envs' : Nat → Nat → Env) (disk' : List String),
      run_tests_model cfg cb' top envs' disk' = run_tests_model cfg cb top envs disk) ∧
    ∀ major? : Option Nat, (run_model major? false
      (run_tests_success (run_tests_model cfg cb top envs disk))).1 = 1 := by
  have key : ∀ (cb'' : List State → String) (envs'' : Nat → Nat → Env)
      (disk'' : List String),
      run_tests_model cfg cb'' top envs'' disk'' =
        if (prepared_suite cfg top).length = 0 then RunOutcome.fatal "nothing to test"
        else RunOutcome.fatal "nothing to test because all tests were skipped" := by
    intro cb'' envs'' disk''
    rw [run_tests_model_eq]
    by_cases h0 : (prepared_suite cfg top).length = 0
    · rw [if_pos h0, if_pos h0]
    · rw [if_neg h0, if_neg h0]
      have hany : (prepared_suite cfg top).any (fun it => !it.2.skip) = false := by
        rcases h with h | h
        · exact absurd (by rw [h]; rfl) h0
        · rw [List.any_eq_false]
          intro it hit
          simp [h it hit]
      rw [if_neg (by simp [hany])]
  have hfatal : ∃ msg, run_tests_model cfg cb top envs disk = .fatal msg ∧
      (msg = "nothing to test" ∨
        msg = "nothing to test because all tests were skipped") := by
    rw [key cb envs disk]
    by_cases h0 : (prepared_suite cfg top).length = 0
    · rw [if_pos h0]
      exact ⟨_, rfl, Or.inl rfl⟩
    · rw [if_neg h0]
      exact ⟨_, rfl, Or.inr rfl⟩
  obtain ⟨msg, hm, hmsg⟩ := hfatal
  have hsucc : run_tests_success (run_tests_model cfg cb top envs disk) = false := by
    rw [hm]
    rfl
  refine ⟨⟨msg, hm, hmsg⟩, hsucc, ?_, ?_⟩
  · intro cb' envs' disk'
    rw [key cb' envs' disk', key cb envs disk]
  · intro major?
    rw [hsucc]
    unfold run_model
    simp

theorem c7_nothing_to_test_witness :
    (prepared_suite cfg_plain top_empty = [] ∨
      ∀ it ∈ prepared_suite cfg_plain top_empty, it.2.skip = true) ∧
    ((∃ msg, run_tests_model cfg_plain cb_concat top_empty
        (fun _ _ => env_plain) [] = .fatal msg ∧
      (msg = "nothing to test" ∨
        msg = "nothing to test because all tests were skipped")) ∧
    run_tests_success (run_tests_model cfg_plain cb_concat top_empty
      (fun _ _ => env_plain) []) = false ∧
    (∀ (cb' : List State → String) (envs' : Nat → Nat → Env) (disk' : List String),
      run_tests_model cfg_plain cb' top_empty envs' disk' =
        run_tests_model cfg_plain cb_concat top_empty (fun _ _ => env_plain) []) ∧
    ∀ major? : Option Nat, (run_model major? false
      (run_tests_success (run_tests_model cfg_plain cb_concat top_empty
        (fun _ _ => env_plain) []))).1 = 1) :=
  ⟨Or.inl (by decide),
    c7_nothing_to_test cfg_plain cb_concat top_empty (fun _ _ => env_plain) []
      (Or.inl (by decide))⟩

theorem state_section_mismatch (cb : List State → String) (test : Test) (env : Env)
    (result : RunResult) (m : Bool) (s : Status) (se st : State)
    (hse : result.state = some se)
    (hst : env.state_output = .value (some st))
    (hne : cb [se] ≠ cb [st]) :
    state_section cb test env result (m, s) =
      (m, { s with
        errors := s.errors ++ ["inconsistent state", "early:", cb [se], "later:", cb [st]],
        failure := true }) := by
  unfold state_section
  simp only [hse, hst]
  rw [if_pos hne]

theorem console_phase_fields (env : Env) (s : Status) :
    (console_phase env s).baseline = s.baseline ∧
    (console_phase env s).baseline_diff = s.baseline_diff := by
  by_cases h1 :
    ((env.entries.filter (fun e => e.level == LogLevel.error)).map LogEntry.text) ≠ []
  all_goals by_cases h2 : env.exceptions ≠ []
  all_goals simp [console_phase, h1, h2]

theorem clear_phase_fields (env : Env) (s : Status) :
    (clear_phase env s).baseline = s.baseline ∧
    (clear_phase env s).baseline_diff = s.baseline_diff := by
  unfold clear_phase
  split <;> simp

theorem screenshot_section_fields (cfg : Config) (test : Test) (attempt : Option Nat)
    (env : Env) (bbox : Option Box) (m : Bool) (s : Status) :
    (screenshot_section cfg test attempt env bbox (m, s)).2.baseline = s.baseline ∧
    (screenshot_section cfg test attempt env bbox (m, s)).2.baseline_diff = s.baseline_diff := by
  unfold screenshot_section
  rcases bbox with _ | b
  · simp
  · rcases cfg.screenshot with _ | _ | _
    · rcases env.existing_image with _ | ex
      · simp
      · simp only []
        split
        · rcases env.image_diff with _ | dr
          · simp
          · simp only []
            split <;> simp
        · simp
    · simp
    · simp

/-- C2: when the textual state embedded in the `Tests.run` result and the
state retrieved by the follow-up `Tests.get_state` query serialize to
different baseline texts, the attempt is marked failed with an
`inconsistent state` error, the stored-baseline comparison is not performed
(`status.baseline` and `status.baseline_diff` are left untouched), and the
whole outcome is identical for every stored-baseline content — the failure is
independent of whether either snapshot would have matched it. -/
theorem c2_inconsistent_state (cfg : Config) (cb : List State → String) (test : Test)
    (attempt : Option Nat) (env : Env) (status : Status)
    (r : RunResult) (se st : State)
    (hroot : cfg.baselines_root.isSome = true)
    (hrun : env.run_output = .value r)
    (hse : r.state = some se)
    (hst : env.state_output = .value (some st))
    (hne : cb [se] ≠ cb [st]) :
    (run_test cfg cb test attempt env status).2.failure = true ∧
    "inconsistent state" ∈ (run_test cfg cb test attempt env status).2.errors ∧
    (run_test cfg cb test attempt env status).2.baseline = status.baseline ∧
    (run_test cfg cb test attempt env status).2.baseline_diff = status.baseline_diff ∧
    ∀ (v : Option String) (d : String),
      run_test cfg cb test attempt
        { env with existing_baseline := v, baseline_diff := d } status =
      run_test cfg cb test attempt env status := by
  obtain ⟨root, hroot'⟩ := Option.isSome_iff_exists.mp hroot
  have hform : ∀ (env0 : Env), env0.run_output = EvalResult.value r →
      env0.state_output = EvalResult.value (some st) →
      output_phase cfg cb test attempt env0 false (console_phase env0 status) =
        screenshot_section cfg test attempt env0 r.bbox
          (false,
           { (match r.error with
              | some e =>
                { console_phase env0 status with
                  errors := (console_phase env0 status).errors ++ [e.stack.getD e.str],
                  failure := true }
              | none => console_phase env0 status) with
             errors := (match r.error with
              | some e =>
                { console_phase env0 status with
                  errors := (console_phase env0 status).errors ++ [e.stack.getD e.str],
                  failure := true }
              | none => console_phase env0 status).errors ++
                ["inconsistent state", "early:", cb [se], "later:", cb [st]],
             failure := true }) := by
    intro env0 h1 h2
    unfold output_phase
    simp only [h1, hroot']
    rcases herr : r.error with _ | err <;> simp only [herr]
    · rw [state_section_mismatch cb test env0 r false _ se st hse h2 hne]
    · rw [state_section_mismatch cb test env0 r false _ se st hse h2 hne]
  have hindep : ∀ (v : Option String) (d : String),
      run_test cfg cb test attempt
        { env with existing_baseline := v, baseline_diff := d } status =
      run_test cfg cb test attempt env status := by
    intro v d
    show (fun a => (a.1, clear_phase { env with existing_baseline := v, baseline_diff := d } a.2))
        (output_phase cfg cb test attempt { env with existing_baseline := v, baseline_diff := d }
          false (console_phase { env with existing_baseline := v, baseline_diff := d } status)) =
      (fun a => (a.1, clear_phase env a.2))
        (output_phase cfg cb test attempt env false (console_phase env status))
    rw [hform { env with existing_baseline := v, baseline_diff := d } hrun hst,
      hform env hrun hst]
    rfl
  have hmain := hform env hrun hst
  have hfacts : (run_test cfg cb test attempt env status).2.failure = true ∧
      "inconsistent state" ∈ (run_test cfg cb test attempt env status).2.errors := by
    show ((clear_phase env (output_phase cfg cb test attempt env false
        (console_phase env status)).2).failure = true) ∧
      "inconsistent state" ∈ (clear_phase env (output_phase cfg cb test attempt env false
        (console_phase env status)).2).errors
    rw [hmain]
    have hf3 : (({ (match r.error with
        | some e =>
          { console_phase env status with
            errors := (console_phase env status).errors ++ [e.stack.getD e.str],
            failure := true }
        | none => console_phase env status) with
          errors := (match r.error with
          | some e =>
            { console_phase env status with
              errors := (console_phase env status).errors ++ [e.stack.getD e.str],
              failure := true }
          | none => console_phase env status).errors ++
            ["inconsistent state", "early:", cb [se], "later:", cb [st]],
          failure := true } : Status).failure = true) := rfl
    have he3 : "inconsistent state" ∈ ({ (match r.error with
        | some e =>
          { console_phase env status with
            errors := (console_phase env status).errors ++ [e.stack.getD e.str],
            failure := true }
        | none => console_phase env status) with
          errors := (match r.error with
          | some e =>
            { console_phase env status with
              errors := (console_phase env status).errors ++ [e.stack.getD e.str],
              failure := true }
          | none => console_phase env status).errors ++
            ["inconsistent state", "early:", cb [se], "later:", cb [st]],
          failure := true } : Status).errors := by
      simp [List.mem_append]
    obtain ⟨hf4, he4⟩ := screenshot_section_keeps cfg test attempt env r.bbox false _
      "inconsistent state" hf3 he3
    exact clear_phase_keeps env _ "inconsistent state" hf4 he4
  have hfields : (run_test cfg cb test attempt env status).2.baseline = status.baseline ∧
      (run_test cfg cb test attempt env status).2.baseline_diff = status.baseline_diff := by
    show ((clear_phase env (output_phase cfg cb test attempt env false
        (console_phase env status)).2).baseline = status.baseline) ∧
      (clear_phase env (output_phase cfg cb test attempt env false
        (console_phase env status)).2).baseline_diff = status.baseline_diff
    rw [hmain]
    obtain ⟨hb1, hd1⟩ := console_phase_fields env status
    have hb2 : (match r.error with
        | some e =>
          { console_phase env status with
            errors := (console_phase env status).errors ++ [e.stack.getD e.str],
            failure := true }
        | none => console_phase env status).baseline = status.baseline := by
      rcases r.error with _ | err <;> simpa using hb1
    have hd2 : (match r.error with
        | some e =>
          { console_phase env status with
            errors := (console_phase env status).errors ++ [e.stack.getD e.str],
            failure := true }
        | none => console_phase env status).baseline_diff = status.baseline_diff := by
      rcases r.error with _ | err <;> simpa using hd1
    obtain ⟨hb4, hd4⟩ := screenshot_section_fields cfg test attempt env r.bbox false _
    obtain ⟨hb5, hd5⟩ := clear_phase_fields env
      (screenshot_section cfg test attempt env r.bbox (false, _)).2
    refine ⟨?_, ?_⟩
    · rw [hb5, hb4]
      exact hb2
    · rw [hd5, hd4]
      exact hd2
  exact ⟨hfacts.1, hfacts.2, hfields.1, hfields.2, hindep⟩

theorem c2_inconsistent_state_witness :
    (cfg_baselines.baselines_root.isSome = true ∧
      env_inconsistent.run_output = .value r_inconsistent ∧
      r_inconsistent.state = some "A" ∧
      env_inconsistent.state_output = .value (some "B") ∧
      cb_concat ["A"] ≠ cb_concat ["B"]) ∧
    ((run_test cfg_baselines cb_concat test_plain none env_inconsistent {}).2.failure = true ∧
    "inconsistent state" ∈
      (run_test cfg_baselines cb_concat test_plain none env_inconsistent {}).2.errors ∧
    (run_test cfg_baselines cb_concat test_plain none env_inconsistent {}).2.baseline =
      (({} : Status)).baseline ∧
    (run_test cfg_baselines cb_concat test_plain none env_inconsistent {}).2.baseline_diff =
      (({} : Status)).baseline_diff ∧
    ∀ (v : Option String) (d : String),
      run_test cfg_baselines cb_concat test_plain none
        { env_inconsistent with existing_baseline := v, baseline_diff := d } {} =
      run_test cfg_baselines cb_concat test_plain none env_inconsistent {}) :=
  ⟨⟨rfl, rfl, rfl, rfl, by decide⟩,
    c2_inconsistent_state cfg_baselines cb_concat test_plain none env_inconsistent {}
      r_inconsistent "A" "B" rfl rfl rfl rfl (by decide)⟩

/-- C5 (counterexample): an image difference of `3` pixels with a per-test
threshold of `5` is tolerated (the attempt is not marked failed), yet the
attempt still reports retry eligibility — `may_retry` is set as soon as
`diff_image` returns a result, before the threshold is consulted.  This
refutes "only above-threshold differences make the attempt retry-eligible". -/
theorem c5_threshold_retry_counterexample :
    (run_test cfg_baselines cb_concat test_threshold5 none env_small_diff {}).1 = true ∧
    (run_test cfg_baselines cb_concat test_threshold5 none env_small_diff {}).2.failure = false ∧
    env_small_diff.image_diff = some { diff := [2], pixels := 3, percent := "0.01" } ∧
    test_threshold5.threshold = some 5 := by
  refine ⟨?_, ?_, rfl, rfl⟩ <;> decide

/-- C5 (amended): in screenshot mode `test`, with a stored reference image
that differs from the captured bitmap and a non-null `diff_image` result, the
attempt is recorded as failed — with the differing pixel count and diff
percentage — exactly when the pixel count exceeds the per-test threshold
(default `0`); at or below the threshold nothing is recorded; but the attempt
is retry-eligible in either case, regardless of the threshold. -/
theorem c5_image_threshold (cfg : Config) (test : Test) (attempt : Option Nat)
    (env : Env) (bbox : Option Box) (m : Bool) (s : Status)
    (ex : Image) (dr : ImageDiffResult)
    (hmode : cfg.screenshot = .test)
    (hb : bbox.isSome = true)
    (hex : env.existing_image = some ex)
    (hne : ex ≠ env.captured_image)
    (hdr : env.image_diff = some dr) :
    (screenshot_section cfg test attempt env bbox (m, s)).1 = true ∧
    (screenshot_section cfg test attempt env bbox (m, s)).2.failure =
      (s.failure || decide (dr.pixels > test.threshold.getD 0)) ∧
    (dr.pixels ≤ test.threshold.getD 0 →
      (screenshot_section cfg test attempt env bbox (m, s)).2.errors = s.errors ∧
      (screenshot_section cfg test attempt env bbox (m, s)).2.image_diff = s.image_diff) ∧
    (dr.pixels > test.threshold.getD 0 →
      image_diff_message dr.pixels dr.percent attempt ∈
        (screenshot_section cfg test attempt env bbox (m, s)).2.errors ∧
      (screenshot_section cfg test attempt env bbox (m, s)).2.image_diff = some dr.diff) := by
  obtain ⟨b, hb'⟩ := Option.isSome_iff_exists.mp hb
  unfold screenshot_section
  simp only [hb', hmode, hex, hdr]
  rw [if_pos hne]
  by_cases hp : dr.pixels > test.threshold.getD 0
  · rw [if_pos hp]
    refine ⟨rfl, by simp [hp], ?_, ?_⟩
    · intro hle; omega
    · intro _
      exact ⟨by simp [List.mem_append], rfl⟩
  · rw [if_neg hp]
    refine ⟨rfl, by simp [hp], ?_, ?_⟩
    · intro _
      exact ⟨rfl, rfl⟩
    · intro hgt; omega

theorem c5_image_threshold_witness :
    (cfg_baselines.screenshot = .test ∧
      (some (Box.mk 0 0 1 1) : Option Box).isSome = true ∧
      env_small_diff.existing_image = some [1] ∧
      ([1] : Image) ≠ env_small_diff.captured_image ∧
      env_small_diff.image_diff = some { diff := [2], pixels := 3, percent := "0.01" }) ∧
    ((screenshot_section cfg_baselines test_threshold5 none env_small_diff
        (some (Box.mk 0 0 1 1)) (false, {})).1 = true ∧
    (screenshot_section cfg_baselines test_threshold5 none env_small_diff
        (some (Box.mk 0 0 1 1)) (false, {})).2.failure =
      ((({} : Status)).failure ||
        decide ((({ diff := [2], pixels := 3, percent := "0.01" } : ImageDiffResult)).pixels >
          test_threshold5.threshold.getD 0)) ∧
    ((({ diff := [2], pixels := 3, percent := "0.01" } : ImageDiffResult)).pixels ≤
        test_threshold5.threshold.getD 0 →
      (screenshot_section cfg_baselines test_threshold5 none env_small_diff
        (some (Box.mk 0 0 1 1)) (false, {})).2.errors = (({} : Status)).errors ∧
      (screenshot_section cfg_baselines test_threshold5 none env_small_diff
        (some (Box.mk 0 0 1 1)) (false, {})).2.image_diff = (({} : Status)).image_diff) ∧
    ((({ diff := [2], pixels := 3, percent := "0.01" } : ImageDiffResult)).pixels >
        test_threshold5.threshold.getD 0 →
      image_diff_message (({ diff := [2], pixels := 3, percent := "0.01" } : ImageDiffResult)).pixels
          (({ diff := [2], pixels := 3, percent := "0.01" } : ImageDiffResult)).percent none ∈
        (screenshot_section cfg_baselines test_threshold5 none env_small_diff
          (some (Box.mk 0 0 1 1)) (false, {})).2.errors ∧
      (screenshot_section cfg_baselines test_threshold5 none env_small_diff
        (some (Box.mk 0 0 1 1)) (false, {})).2.image_diff =
        some (({ diff := [2], pixels := 3, percent := "0.01" } : ImageDiffResult)).diff)) :=
  ⟨⟨rfl, rfl, rfl, by decide, rfl⟩,
    c5_image_threshold cfg_baselines test_threshold5 none env_small_diff
      (some (Box.mk 0 0 1 1)) false {} [1] { diff := [2], pixels := 3, percent := "0.01" }
      rfl rfl rfl (by decide) rfl⟩

end Runner

namespace DocModel

theorem set_attr_suppressed (d : Document) (m : Nat) (a : String) (v : Int) :
    (set_attr true d m a v).2 = [] := by
  unfold set_attr
  simp

theorem set_attr_ready (sup : Bool) (d : Document) (m : Nat) (a : String) (v : Int) :
    (set_attr sup d m a v).1.ready_emitted = d.ready_emitted := by
  unfold set_attr
  simp

theorem set_attr_no_ready (sup : Bool) (d : Document) (m : Nat) (a : String) (v : Int) :
    (set_attr sup d m a v).2.count DocEvent.doc_ready = 0 := by
  have he : (set_attr sup d m a v).2 =
      if (sup = true ∨
          (d.attrs.find? (fun e => e.1 == (m, a))).map (fun e => e.2) = some v) then []
      else [DocEvent.model_changed m a v] := rfl
  rw [he]
  split <;> simp

theorem apply_writes_suppressed :
    ∀ (writes : List ((Nat × String) × Int)) (d : Document) (evs : List DocEvent),
      (apply_writes true (d, evs) writes).2 = evs := by
  intro writes
  induction writes with
  | nil => intro d evs; rfl
  | cons w ws ih =>
    intro d evs
    unfold apply_writes at ih ⊢
    rw [List.foldl_cons]
    rw [set_attr_suppressed, List.append_nil]
    exact ih _ evs

theorem apply_writes_ready :
    ∀ (writes : List ((Nat × String) × Int)) (sup : Bool) (d : Document)
      (evs : List DocEvent),
      (apply_writes sup (d, evs) writes).1.ready_emitted = d.ready_emitted := by
  intro writes
  induction writes with
  | nil => intro sup d evs; rfl
  | cons w ws ih =>
    intro sup d evs
    unfold apply_writes at ih ⊢
    rw [List.foldl_cons]
    rw [ih sup _ _]
    exact set_attr_ready sup d w.1.1 w.1.2 w.2

theorem apply_writes_no_ready :
    ∀ (writes : List ((Nat × String) × Int)) (sup : Bool) (d : Document)
      (evs : List DocEvent),
      (apply_writes sup (d, evs) writes).2.count DocEvent.doc_ready =
        evs.count DocEvent.doc_ready := by
  intro writes
  induction writes with
  | nil => intro sup d evs; rfl
  | cons w ws ih =>
    intro sup d evs
    unfold apply_writes at ih ⊢
    rw [List.foldl_cons]
    rw [ih sup _ _]
    rw [List.count_append]
    rw [set_attr_no_ready]
    simp

theorem render_pass_ready (d : Document) (der : List ((Nat × String) × Int)) :
    (render_pass d der).1.ready_emitted = true := by
  unfold render_pass
  split
  · assumption
  · rfl

/-- C9: loading a document snapshot emits zero change events, and exactly one
document-ready signal is emitted once the first full render pass (derived
range-autocompute changes included) completes — the signal is the last event
of that pass and a later render pass emits no further ready signal. -/
theorem c9_snapshot_quiet_single_ready
    (snapshot derived derived2 : List ((Nat × String) × Int)) :
    (from_snapshot snapshot).2 = [] ∧
    (render_pass (from_snapshot snapshot).1 derived).2.count DocEvent.doc_ready = 1 ∧
    (render_pass (from_snapshot snapshot).1 derived).2.getLast? =
      some DocEvent.doc_ready ∧
    (render_pass (render_pass (from_snapshot snapshot).1 derived).1 derived2).2.count
      DocEvent.doc_ready = 0 := by
  have hq : (from_snapshot snapshot).2 = [] := apply_writes_suppressed snapshot {} []
  have hr0 : (from_snapshot snapshot).1.ready_emitted = false :=
    apply_writes_ready snapshot true {} []
  have hr1 : (apply_writes false ((from_snapshot snapshot).1, []) derived).1.ready_emitted
      = false := by
    rw [apply_writes_ready]
    exact hr0
  have hcount1 : (apply_writes false ((from_snapshot snapshot).1, []) derived).2.count
      DocEvent.doc_ready = 0 := by
    rw [apply_writes_no_ready]
    rfl
  refine ⟨hq, ?_, ?_, ?_⟩
  · unfold render_pass
    rw [if_neg (by rw [hr1]; exact Bool.false_ne_true)]
    rw [List.count_append, hcount1]
    rfl
  · unfold render_pass
    rw [if_neg (by rw [hr1]; exact Bool.false_ne_true)]
    exact List.getLast?_concat _
  · have hready : (render_pass (from_snapshot snapshot).1 derived).1.ready_emitted = true :=
      render_pass_ready _ _
    unfold render_pass
    rw [if_pos (by rw [apply_writes_ready]; exact hready)]
    rw [apply_writes_no_ready]
    rfl

end DocModel
